import Mathlib

/-!
Shallow embedding of `src/burgbot.py` (a-bison/burgbot): the channel-binding
and interactive-recovery subsystem plus the burg statistics counters.

The saru configuration store is modelled as insertion-ordered association
lists (Python `dict` semantics: `set` replaces in place or appends, `del`
removes, iteration follows insertion order).  Timestamps and stored values
live in `ℚ`.  External transport effects (message send/delete, webhook
delivery) are reflected in an explicit `World` state; fallible store reads
(`cfg.get` / `get_and_set` on a missing key raise `KeyError` in Python)
return `Option`.
-/

/-- The flat key-value store backing `BurgStatMixin` (`g/burg/stats` and
`c/burg/stats` in the source): keys `burger_epoch`, `burgers_posted`,
`angry_burgers_posted`. -/
abbrev StatStore := List (String × ℚ)

/-- `cfg.get(key)` — first matching entry, `none` when the key is absent. -/
def StatStore.getKey : StatStore → String → Option ℚ
  | [], _ => none
  | (k', v') :: rest, k => if k' = k then some v' else StatStore.getKey rest k

/-- `cfg.set(key, value)` — replace in place, or append when absent
(Python dict update semantics). -/
def StatStore.setKey : StatStore → String → ℚ → StatStore
  | [], k, v => [(k, v)]
  | (k', v') :: rest, k, v =>
    if k' = k then (k, v) :: rest else (k', v') :: StatStore.setKey rest k v

/-- `BurgStatMixin.count_burg` (burgbot.py:36-43): lazily initialize the
epoch and both known counters on first use, then
`cfg.get_and_set(count_key, lambda x: x + 1)`.  The `get_and_set` on a
missing key fails, hence the `Option` result. -/
def count_burg (s : StatStore) (now : ℚ) (count_key : String) : Option StatStore :=
  let s1 :=
    if (s.getKey "burger_epoch").isSome then s
    else (((s.setKey "burger_epoch" now).setKey "burgers_posted" 0).setKey
      "angry_burgers_posted" 0)
  match s1.getKey count_key with
  | none => none
  | some v => some (s1.setKey count_key (v + 1))

/-- `BurgStatMixin.num_burg` (burgbot.py:45-49): 0 when the epoch is unset,
otherwise `cfg.get(count_key)` (which fails on a missing key). -/
def num_burg (s : StatStore) (count_key : String) : Option ℚ :=
  if (s.getKey "burger_epoch").isSome then s.getKey count_key else some 0

/-- Python `round` ties-to-even, on an integer target. -/
def roundHalfEven (q : ℚ) : ℤ :=
  let f := ⌊q⌋
  if q - f < 1/2 then f
  else if 1/2 < q - f then f + 1
  else if f % 2 = 0 then f else f + 1

/-- Python `round(x, 1)`. -/
def roundTo1 (q : ℚ) : ℚ := (roundHalfEven (q * 10) : ℚ) / 10

/-- `delta.total_seconds() / (60*60)` (burgbot.py:57-60). -/
def hoursElapsed (now epoch : ℚ) : ℚ := (now - epoch) / (60 * 60)

/-- `BurgStatMixin.average_burg_per_hour` (burgbot.py:51-61): 0.0 when the
epoch is unset, else `round(cfg.get(count_key) / hours, 1)` with
`hours = (now - epoch) / 3600`, a single `now` taken at call time. -/
def average_burg_per_hour (s : StatStore) (now : ℚ) (count_key : String) : Option ℚ :=
  match s.getKey "burger_epoch" with
  | none => some 0
  | some epoch =>
    match s.getKey count_key with
    | none => none
    | some count => some (roundTo1 (count / hoursElapsed now epoch))

/-- `count_burg` iterated `n` times, with call `i` happening at time `ts i`. -/
def count_burg_N (s : StatStore) (ts : ℕ → ℚ) (count_key : String) : ℕ → Option StatStore
  | 0 => some s
  | n + 1 =>
    match count_burg_N s ts count_key n with
    | none => none
    | some s' => count_burg s' (ts n) count_key

/-- Stat-store invariant: once the epoch is set, both known counters hold
values. -/
def statInv (s : StatStore) : Prop :=
  (s.getKey "burger_epoch").isSome →
    (s.getKey "burgers_posted").isSome ∧ (s.getKey "angry_burgers_posted").isSome

instance (s : StatStore) : Decidable (statInv s) := by
  unfold statInv; infer_instance

/-- A message held by the external transport: `hikari.Message` restricted to
the fields the subsystem reads. -/
structure Message where
  id : ℕ
  channelId : ℕ
deriving DecidableEq

/-- One entry of the `channels` subtree of `g/burg`
(`cfg_obj` at burgbot.py:122-127). -/
structure ChannelCfg where
  channel_id : ℕ
  webhook_id : ℕ
  webhook_token : ℕ
  button_id : Option ℕ
deriving DecidableEq

/-- The `channels` subtree: a dict keyed by channel id. -/
abbrev Channels := List (ℕ × ChannelCfg)

def Channels.getKey : Channels → ℕ → Option ChannelCfg
  | [], _ => none
  | (k', v') :: rest, k => if k' = k then some v' else Channels.getKey rest k

def Channels.setKey : Channels → ℕ → ChannelCfg → Channels
  | [], k, v => [(k, v)]
  | (k', v') :: rest, k, v =>
    if k' = k then (k, v) :: rest else (k', v') :: Channels.setKey rest k v

/-- `del channels[k]` / `path_delete`. -/
def Channels.delKey : Channels → ℕ → Channels
  | [], _ => []
  | (k', v') :: rest, k =>
    if k' = k then Channels.delKey rest k else (k', v') :: Channels.delKey rest k

/-- Observable store/transport effects of `remove_burg_button`. -/
inductive Effect where
  | readButton (channelId : ℕ)
  | logMismatch (stored : Option ℕ) (got : ℕ)
  | deleteMsg (messageId : ℕ)
deriving DecidableEq

/-- Combined state: the community's `channels` config subtree, the set of
currently-existing control messages, the count of successful webhook
deliveries, the set of attached (started) miru views, and the two stat
scopes reachable from `BurgConfig` (`self.stats` / `self.gstats`). -/
structure World where
  channels : Channels
  liveMessages : List Message
  delivered : ℕ
  startedViews : List (ℕ × ℕ)
  gstats : StatStore
  stats : StatStore
deriving DecidableEq

/-- The control messages currently live in channel `ch`. -/
def liveControls (w : World) (ch : ℕ) : List Message :=
  w.liveMessages.filter (fun m => m.channelId = ch)

/-- `self.view.stop()` at the top of `BurgButton.callback`: the handler
attached to the pressed message stops listening. -/
def viewStop (w : World) (msg : Message) : World :=
  { w with startedViews := w.startedViews.filter (fun p => p ≠ (msg.channelId, msg.id)) }

/-- `BurgConfig.remove_burg_button` (burgbot.py:140-150): return at once when
the message's channel is not bound; otherwise read the stored `button_id`,
log and return on mismatch, and delete the message only on a match.  The
effect list records what the call read, logged, and deleted. -/
def remove_burg_button (w : World) (msg : Message) : World × List Effect :=
  match w.channels.getKey msg.channelId with
  | none => (w, [])
  | some cc =>
    if cc.button_id = some msg.id then
      ({ w with liveMessages := w.liveMessages.filter (fun m => m.id ≠ msg.id) },
        [Effect.readButton msg.channelId, Effect.deleteMsg msg.id])
    else
      (w, [Effect.readButton msg.channelId, Effect.logMismatch cc.button_id msg.id])

/-- `BurgConfig.create_burg_button` (burgbot.py:152-157): send a fresh
control message (the transport assigns `freshId`), store its id under
`channels/<id>/button_id`, and start the view on it.  `path_set` on an
unbound channel is modelled as leaving the config unchanged; every call in
the source happens with the binding present. -/
def create_burg_button (w : World) (channelId freshId : ℕ) : World :=
  let channels' :=
    match w.channels.getKey channelId with
    | some cc => w.channels.setKey channelId { cc with button_id := some freshId }
    | none => w.channels
  { w with
    liveMessages := w.liveMessages ++ [⟨freshId, channelId⟩],
    channels := channels',
    startedViews := w.startedViews ++ [(channelId, freshId)] }

/-- `BurgConfig.post_to_burghook` (burgbot.py:170-186): read the webhook
credentials (fails when the channel is unbound) and execute the delivery;
`ok = false` models a transport failure, which propagates. -/
def post_to_burghook (w : World) (channelId : ℕ) (ok : Bool) : Option World :=
  match w.channels.getKey channelId with
  | none => none
  | some _ => if ok then some { w with delivered := w.delivered + 1 } else none

/-- `BurgConfig.create_burg_channel` (burgbot.py:94-130), restricted to its
configuration effect: after provisioning the channel and webhook, persist
`channels/<channel.id> = {channel_id, webhook_id, webhook_token,
button_id: None}`. -/
def create_burg_channel (w : World) (channelId webhookId webhookToken : ℕ) : World :=
  { w with
    channels := w.channels.setKey channelId
      ⟨channelId, webhookId, webhookToken, none⟩ }

/-- `BurgConfig.delete_burg_channel` (burgbot.py:132-138): `path_get` the
binding (fails when absent), delete the webhook and channel externally, then
`path_delete` the whole `channels/<id>` entry. -/
def delete_burg_channel (w : World) (channelId : ℕ) : Option World :=
  match w.channels.getKey channelId with
  | none => none
  | some _ => some { w with channels := w.channels.delKey channelId }

/-- `BurgConfig.resume_views` (burgbot.py:159-168), iterating the persisted
bindings in storage order.  `found c b` tells whether
`fetch_message(c, b)` succeeds; a not-found triggers
`create_burg_button` followed by the source's early `return`; a found
message gets its view restarted.  `fetch_message` with a `None` button id
fails with a non-`NotFoundError` error, modelled as stopping. -/
def resume_views_go (w : World) (cfgs : List ChannelCfg)
    (found : ℕ → ℕ → Bool) (freshId : ℕ) : World :=
  match cfgs with
  | [] => w
  | cc :: rest =>
    match cc.button_id with
    | none => w
    | some b =>
      if found cc.channel_id b then
        resume_views_go
          { w with startedViews := w.startedViews ++ [(cc.channel_id, b)] }
          rest found freshId
      else
        create_burg_button w cc.channel_id freshId

def resume_views (w : World) (found : ℕ → ℕ → Bool) (freshId : ℕ) : World :=
  resume_views_go w (w.channels.map (fun p => p.2)) found freshId

/-- Result of one activation: `ok` carries the final state, `err` the state
at the point where the exception propagated out of the handler. -/
inductive ActResult where
  | ok (w : World)
  | err (w : World)
deriving DecidableEq

def ActResult.state : ActResult → World
  | .ok w => w
  | .err w => w

def ActResult.isOk : ActResult → Bool
  | .ok _ => true
  | .err _ => false

/-- `BurgButton.callback` (burgbot.py:263-275): stop the view, remove the old
control, deliver through the webhook, bump both stat scopes, then re-arm
with a fresh control.  The returned list holds the state at each suspension
point (before and after every awaited step) up to the point reached; the
`ActResult` is the outcome seen by the caller. -/
def callback (w : World) (msg : Message) (count_key : String) (now : ℚ)
    (freshId : ℕ) (deliveryOk : Bool) : List World × ActResult :=
  let w0 := viewStop w msg
  let w1 := (remove_burg_button w0 msg).1
  match post_to_burghook w1 msg.channelId deliveryOk with
  | none => ([w, w0, w1], .err w1)
  | some w2 =>
    match count_burg w2.gstats now count_key with
    | none => ([w, w0, w1, w2], .err w2)
    | some g =>
      let w3 := { w2 with gstats := g }
      match count_burg w3.stats now count_key with
      | none => ([w, w0, w1, w2, w3], .err w3)
      | some st =>
        let w4 := { w3 with stats := st }
        let w5 := create_burg_button w4 msg.channelId freshId
        ([w, w0, w1, w2, w3, w4, w5], .ok w5)

/-- Pointwise property of every observation point of a trace. -/
def WorldsOk (p : World → Prop) : List World → Prop
  | [] => True
  | w :: rest => p w ∧ WorldsOk p rest

/-! ### Witness fixtures: a single bound channel 5 with control message 10. -/

def msgW : Message := ⟨10, 5⟩

def ccW : ChannelCfg := ⟨5, 7, 8, some 10⟩

def wldW : World := ⟨[(5, ccW)], [msgW], 0, [], [], []⟩

/-- Two persisted bindings; channel 1's control message 10 was deleted while
the process was offline, channel 2's control message 20 still exists. -/
def wldC2 : World :=
  ⟨[(1, ⟨1, 101, 201, some 10⟩), (2, ⟨2, 102, 202, some 20⟩)], [⟨20, 2⟩], 0, [], [], []⟩

/-! ### Store lemmas -/

theorem StatStore.getKey_set_stat (s : StatStore) (k k2 : String) (v : ℚ) :
    (s.setKey k v).getKey k2 = if k = k2 then some v else s.getKey k2 := by
  induction s with
  | nil => simp [StatStore.setKey, StatStore.getKey]
  | cons p rest ih =>
    obtain ⟨k', v'⟩ := p
    by_cases h : k' = k <;> by_cases h2 : k' = k2 <;>
      simp_all [StatStore.setKey, StatStore.getKey] <;>
      first
      | exact Ne.symm h
      | rw [if_neg (Ne.symm h)]

theorem Channels.getKey_set_chan (s : Channels) (k k2 : ℕ) (v : ChannelCfg) :
    (s.setKey k v).getKey k2 = if k = k2 then some v else s.getKey k2 := by
  induction s with
  | nil => simp [Channels.setKey, Channels.getKey]
  | cons p rest ih =>
    obtain ⟨k', v'⟩ := p
    by_cases h : k' = k <;> by_cases h2 : k' = k2 <;>
      simp_all [Channels.setKey, Channels.getKey] <;>
      first
      | exact Ne.symm h
      | rw [if_neg (Ne.symm h)]

theorem Channels.getKey_delKey (s : Channels) (k k2 : ℕ) :
    (s.delKey k).getKey k2 = if k = k2 then none else s.getKey k2 := by
  induction s with
  | nil => simp [Channels.delKey, Channels.getKey, ite_self]
  | cons p rest ih =>
    obtain ⟨k', v'⟩ := p
    by_cases h : k' = k <;> by_cases h2 : k' = k2 <;>
      simp_all [Channels.delKey, Channels.getKey] <;>
      first
      | exact Ne.symm h
      | rw [if_neg (Ne.symm h)]

/-! ### Helper lemmas on the lifecycle operations -/

theorem remove_burg_button_match (w : World) (msg : Message) (cc : ChannelCfg)
    (hb : w.channels.getKey msg.channelId = some cc) (hid : cc.button_id = some msg.id) :
    remove_burg_button w msg =
      ({ w with liveMessages := w.liveMessages.filter (fun m => m.id ≠ msg.id) },
        [Effect.readButton msg.channelId, Effect.deleteMsg msg.id]) := by
  simp only [remove_burg_button, hb]
  rw [if_pos hid]

theorem remove_burg_button_mismatch (w : World) (msg : Message) (cc : ChannelCfg)
    (hb : w.channels.getKey msg.channelId = some cc) (hid : cc.button_id ≠ some msg.id) :
    remove_burg_button w msg =
      (w, [Effect.readButton msg.channelId, Effect.logMismatch cc.button_id msg.id]) := by
  simp only [remove_burg_button, hb]
  rw [if_neg hid]

theorem post_to_burghook_spec (w : World) (ch : ℕ) (ok : Bool)
    (hb : (w.channels.getKey ch).isSome) :
    post_to_burghook w ch ok =
      if ok then some { w with delivered := w.delivered + 1 } else none := by
  obtain ⟨cc, hcc⟩ := Option.isSome_iff_exists.mp hb
  simp only [post_to_burghook, hcc]

theorem liveControls_filter_id (w : World) (msg : Message)
    (hlive : liveControls w msg.channelId = [msg]) :
    (w.liveMessages.filter (fun m => m.id ≠ msg.id)).filter
      (fun m => m.channelId = msg.channelId) = [] := by
  rw [List.eq_nil_iff_forall_not_mem]
  intro m hm
  simp only [List.mem_filter, decide_eq_true_eq] at hm
  obtain ⟨⟨hmem, hidne⟩, hch⟩ := hm
  have hmm : m ∈ liveControls w msg.channelId := by
    simp only [liveControls, List.mem_filter, decide_eq_true_eq]
    exact ⟨hmem, hch⟩
  rw [hlive] at hmm
  simp only [List.mem_singleton] at hmm
  subst hmm
  exact hidne rfl

theorem not_mem_filter_id (l : List Message) (msg : Message) :
    msg ∉ l.filter (fun m => m.id ≠ msg.id) := by
  intro hm
  simp only [List.mem_filter, decide_eq_true_eq] at hm
  exact hm.2 rfl

/-! ### Claim theorems -/

/-- C4: for a bound channel, `remove_burg_button` deletes the passed message
exactly when its id equals the stored `button_id`; on a mismatch it logs and
returns with the whole state (the binding included) unchanged. -/
theorem C4_remove_deletes_iff_match (w : World) (msg : Message) (cc : ChannelCfg)
    (hb : w.channels.getKey msg.channelId = some cc) :
    (cc.button_id = some msg.id →
      remove_burg_button w msg =
        ({ w with liveMessages := w.liveMessages.filter (fun m => m.id ≠ msg.id) },
          [Effect.readButton msg.channelId, Effect.deleteMsg msg.id])) ∧
    (cc.button_id ≠ some msg.id →
      remove_burg_button w msg =
        (w, [Effect.readButton msg.channelId, Effect.logMismatch cc.button_id msg.id])) :=
  ⟨fun hid => remove_burg_button_match w msg cc hb hid,
   fun hid => remove_burg_button_mismatch w msg cc hb hid⟩

theorem C4_witness :
    remove_burg_button wldW msgW =
      ({ wldW with liveMessages := wldW.liveMessages.filter (fun m => m.id ≠ msgW.id) },
        [Effect.readButton msgW.channelId, Effect.deleteMsg msgW.id]) ∧
    remove_burg_button { wldW with channels := [(5, ⟨5, 7, 8, some 99⟩)] } msgW =
      ({ wldW with channels := [(5, ⟨5, 7, 8, some 99⟩)] },
        [Effect.readButton msgW.channelId, Effect.logMismatch (some 99) msgW.id]) :=
  ⟨(C4_remove_deletes_iff_match wldW msgW ccW (by decide)).1 (by decide),
   (C4_remove_deletes_iff_match { wldW with channels := [(5, ⟨5, 7, 8, some 99⟩)] }
      msgW ⟨5, 7, 8, some 99⟩ (by decide)).2 (by decide)⟩

/-- C8: when the message's channel has no binding, `remove_burg_button`
returns at once: the state is untouched and no effect (no read of the
stored control reference, no log, no deletion) is performed. -/
theorem C8_unbound_noop (w : World) (msg : Message)
    (hb : w.channels.getKey msg.channelId = none) :
    remove_burg_button w msg = (w, []) := by
  simp only [remove_burg_button, hb]

theorem C8_witness : remove_burg_button wldW ⟨11, 6⟩ = (wldW, []) :=
  C8_unbound_noop wldW ⟨11, 6⟩ (by decide)

/-- C7: creating a binding and immediately deleting it leaves no entry for
that channel in the `channels` subtree. -/
theorem C7_create_delete_roundtrip (w : World) (ch wid tok : ℕ) :
    (delete_burg_channel (create_burg_channel w ch wid tok) ch).map
      (fun w' => w'.channels.getKey ch) = some none := by
  simp only [create_burg_channel, delete_burg_channel, Channels.getKey_set_chan, if_pos rfl]
  simp [Channels.getKey_delKey]

/-- C6: the hourly rate is 0 when the epoch is unset, and otherwise the
stored count divided by the elapsed hours since the epoch (one `now`
timestamp, elapsed seconds over 3600), rounded to one decimal place. -/
theorem C6_rate_formula (s : StatStore) (now e c : ℚ) (key : String) :
    (s.getKey "burger_epoch" = none → average_burg_per_hour s now key = some 0) ∧
    (s.getKey "burger_epoch" = some e → s.getKey key = some c →
      average_burg_per_hour s now key = some (roundTo1 (c / hoursElapsed now e))) := by
  constructor
  · intro h
    simp [average_burg_per_hour, h]
  · intro h hc
    simp [average_burg_per_hour, h, hc]

theorem C6_witness :
    average_burg_per_hour [] 0 "burgers_posted" = some 0 ∧
    average_burg_per_hour [("burger_epoch", 0), ("burgers_posted", 5)] 7200 "burgers_posted" =
      some (roundTo1 (5 / hoursElapsed 7200 0)) :=
  ⟨(C6_rate_formula [] 0 0 0 "burgers_posted").1 rfl,
   (C6_rate_formula [("burger_epoch", 0), ("burgers_posted", 5)] 7200 0 5
      "burgers_posted").2 rfl rfl⟩

/-- C10: once the epoch is set and the call time is strictly later, the
divisor of the rate computation is strictly positive, so the division in
`average_burg_per_hour` is well-defined. -/
theorem C10_rate_divisor_pos (now epoch : ℚ) (h : epoch < now) :
    0 < hoursElapsed now epoch := by
  unfold hoursElapsed
  have hpos : 0 < now - epoch := sub_pos.mpr h
  positivity

theorem C10_witness : 0 < hoursElapsed 3600 0 :=
  C10_rate_divisor_pos 3600 0 (by norm_num)

/-- C1: during one activation with the pressed message being the channel's
unique live control and the stored reference, every observation point of the
handler shows at most one live control in that channel; the stored reference
moves to the fresh id only in a state where the fresh control message
already exists. -/
theorem C1_at_most_one_control (w : World) (msg : Message) (cc : ChannelCfg)
    (count_key : String) (now : ℚ) (freshId : ℕ) (deliveryOk : Bool)
    (hb : w.channels.getKey msg.channelId = some cc)
    (hid : cc.button_id = some msg.id)
    (hlive : liveControls w msg.channelId = [msg])
    (hfresh : freshId ≠ msg.id) :
    WorldsOk (fun w' =>
        (liveControls w' msg.channelId).length ≤ 1 ∧
        ((w'.channels.getKey msg.channelId).bind (fun c => c.button_id) = some freshId →
          (⟨freshId, msg.channelId⟩ : Message) ∈ w'.liveMessages) ∧
        ((⟨freshId, msg.channelId⟩ : Message) ∈ w'.liveMessages → msg ∉ w'.liveMessages))
      (callback w msg count_key now freshId deliveryOk).1 := by
  have hw1 := remove_burg_button_match (viewStop w msg) msg cc hb hid
  have hP_init : ∀ w' : World, w'.channels = w.channels → w'.liveMessages = w.liveMessages →
      (liveControls w' msg.channelId).length ≤ 1 ∧
      ((w'.channels.getKey msg.channelId).bind (fun c => c.button_id) = some freshId →
        (⟨freshId, msg.channelId⟩ : Message) ∈ w'.liveMessages) ∧
      ((⟨freshId, msg.channelId⟩ : Message) ∈ w'.liveMessages → msg ∉ w'.liveMessages) := by
    intro w' hch hlm
    refine ⟨?_, ?_, ?_⟩
    · have hl : liveControls w' msg.channelId = liveControls w msg.channelId := by
        simp only [liveControls, hlm]
      rw [hl, hlive]
      exact Nat.le_refl 1
    · intro habs
      rw [hch, hb, Option.some_bind, hid, Option.some_inj] at habs
      exact absurd habs.symm hfresh
    · intro hnew
      rw [hlm] at hnew
      have hmm : (⟨freshId, msg.channelId⟩ : Message) ∈ liveControls w msg.channelId := by
        simp only [liveControls, List.mem_filter, decide_eq_true_eq]
        exact ⟨hnew, trivial⟩
      rw [hlive, List.mem_singleton] at hmm
      exact absurd (congrArg Message.id hmm) hfresh
  have hP_removed : ∀ w' : World, w'.channels = w.channels →
      w'.liveMessages = w.liveMessages.filter (fun m => m.id ≠ msg.id) →
      (liveControls w' msg.channelId).length ≤ 1 ∧
      ((w'.channels.getKey msg.channelId).bind (fun c => c.button_id) = some freshId →
        (⟨freshId, msg.channelId⟩ : Message) ∈ w'.liveMessages) ∧
      ((⟨freshId, msg.channelId⟩ : Message) ∈ w'.liveMessages → msg ∉ w'.liveMessages) := by
    intro w' hch hlm
    refine ⟨?_, ?_, ?_⟩
    · have hl : liveControls w' msg.channelId = [] := by
        simp only [liveControls, hlm]
        exact liveControls_filter_id w msg hlive
      rw [hl]
      exact Nat.zero_le 1
    · intro habs
      rw [hch, hb, Option.some_bind, hid, Option.some_inj] at habs
      exact absurd habs.symm hfresh
    · intro _
      rw [hlm]
      exact not_mem_filter_id w.liveMessages msg
  have hP_final : ∀ w' : World, w'.channels = w.channels →
      w'.liveMessages = w.liveMessages.filter (fun m => m.id ≠ msg.id) →
      (liveControls (create_burg_button w' msg.channelId freshId) msg.channelId).length ≤ 1 ∧
      (((create_burg_button w' msg.channelId freshId).channels.getKey msg.channelId).bind
          (fun c => c.button_id) = some freshId →
        (⟨freshId, msg.channelId⟩ : Message) ∈
          (create_burg_button w' msg.channelId freshId).liveMessages) ∧
      ((⟨freshId, msg.channelId⟩ : Message) ∈
          (create_burg_button w' msg.channelId freshId).liveMessages →
        msg ∉ (create_burg_button w' msg.channelId freshId).liveMessages) := by
    intro w' hch hlm
    have hlive' : (create_burg_button w' msg.channelId freshId).liveMessages =
        w'.liveMessages ++ [⟨freshId, msg.channelId⟩] := rfl
    refine ⟨?_, ?_, ?_⟩
    · have hl : liveControls (create_burg_button w' msg.channelId freshId) msg.channelId =
          [⟨freshId, msg.channelId⟩] := by
        simp only [liveControls, hlive', List.filter_append, hlm]
        rw [liveControls_filter_id w msg hlive]
        simp
      rw [hl]
      exact Nat.le_refl 1
    · intro _
      rw [hlive']
      exact List.mem_append_right _ (List.mem_singleton.mpr rfl)
    · intro _
      rw [hlive', hlm]
      intro habs
      rcases List.mem_append.mp habs with h1 | h2
      · exact not_mem_filter_id w.liveMessages msg h1
      · rw [List.mem_singleton] at h2
        exact hfresh (congrArg Message.id h2.symm)
  have hsome : (((remove_burg_button (viewStop w msg) msg).1).channels.getKey
      msg.channelId).isSome := by
    rw [hw1]
    exact Option.isSome_iff_exists.mpr ⟨cc, hb⟩
  cases deliveryOk with
  | false =>
    have hpost : post_to_burghook ((remove_burg_button (viewStop w msg) msg).1)
        msg.channelId false = none := by
      rw [post_to_burghook_spec _ msg.channelId false hsome]
      simp
    simp only [callback, hpost, WorldsOk]
    exact ⟨hP_init w rfl rfl, hP_init _ rfl rfl,
      hP_removed _ (by rw [hw1]; rfl) (by rw [hw1]; rfl), trivial⟩
  | true =>
    have hpost := post_to_burghook_spec ((remove_burg_button (viewStop w msg) msg).1)
      msg.channelId true hsome
    rw [if_pos rfl] at hpost
    simp only [callback, hpost]
    cases hg : count_burg ((remove_burg_button (viewStop w msg) msg).1).gstats now count_key with
    | none =>
      simp only [WorldsOk]
      exact ⟨hP_init w rfl rfl, hP_init _ rfl rfl,
        hP_removed _ (by rw [hw1]; rfl) (by rw [hw1]; rfl),
        hP_removed _ (by rw [hw1]; rfl) (by rw [hw1]; rfl), trivial⟩
    | some g =>
      cases hs : count_burg ((remove_burg_button (viewStop w msg) msg).1).stats now count_key with
      | none =>
        simp only [WorldsOk]
        exact ⟨hP_init w rfl rfl, hP_init _ rfl rfl,
          hP_removed _ (by rw [hw1]; rfl) (by rw [hw1]; rfl),
          hP_removed _ (by rw [hw1]; rfl) (by rw [hw1]; rfl),
          hP_removed _ (by rw [hw1]; rfl) (by rw [hw1]; rfl), trivial⟩
      | some st =>
        simp only [WorldsOk]
        exact ⟨hP_init w rfl rfl, hP_init _ rfl rfl,
          hP_removed _ (by rw [hw1]; rfl) (by rw [hw1]; rfl),
          hP_removed _ (by rw [hw1]; rfl) (by rw [hw1]; rfl),
          hP_removed _ (by rw [hw1]; rfl) (by rw [hw1]; rfl),
          hP_removed _ (by rw [hw1]; rfl) (by rw [hw1]; rfl),
          hP_final _ (by rw [hw1]; rfl) (by rw [hw1]; rfl), trivial⟩

theorem C1_witness :
    WorldsOk (fun w' =>
        (liveControls w' msgW.channelId).length ≤ 1 ∧
        ((w'.channels.getKey msgW.channelId).bind (fun c => c.button_id) = some 11 →
          (⟨11, msgW.channelId⟩ : Message) ∈ w'.liveMessages) ∧
        ((⟨11, msgW.channelId⟩ : Message) ∈ w'.liveMessages → msgW ∉ w'.liveMessages))
      (callback wldW msgW "burgers_posted" 0 11 true).1 :=
  C1_at_most_one_control wldW msgW ccW "burgers_posted" 0 11 true
    (by decide) (by decide) (by decide) (by decide)

theorem count_burg_isSome (s : StatStore) (now : ℚ) (key : String)
    (hinv : statInv s)
    (hkey : key = "burgers_posted" ∨ key = "angry_burgers_posted") :
    (count_burg s now key).isSome := by
  rcases hkey with rfl | rfl <;>
  · cases hep : s.getKey "burger_epoch" with
    | none => simp [count_burg, hep, StatStore.getKey_set_stat]
    | some e =>
      obtain ⟨h1, h2⟩ := hinv (by simp [hep])
      obtain ⟨v1, hv1⟩ := Option.isSome_iff_exists.mp h1
      obtain ⟨v2, hv2⟩ := Option.isSome_iff_exists.mp h2
      simp [count_burg, hep, hv1, hv2]

theorem liveControls_create_burg (w' : World) (ch fid : ℕ) :
    liveControls (create_burg_button w' ch fid) ch =
      liveControls w' ch ++ [⟨fid, ch⟩] := by
  have hlm : (create_burg_button w' ch fid).liveMessages =
      w'.liveMessages ++ [⟨fid, ch⟩] := rfl
  simp [liveControls, hlm, List.filter_append]

/-- C3: per press (on the channel's unique live control): the outcome seen by
the caller succeeds exactly when delivery does; on a delivery failure the
error propagates with the old control already deleted, no replacement
created and the stale binding untouched; on success exactly one delivery
happened, the fresh control is the channel's only live control and the
binding points at it; and in no observation state had a delivery happened
while the pressed control was still live. -/
theorem C3_activation_protocol (w : World) (msg : Message) (cc : ChannelCfg)
    (count_key : String) (now : ℚ) (freshId : ℕ) (deliveryOk : Bool)
    (hb : w.channels.getKey msg.channelId = some cc)
    (hid : cc.button_id = some msg.id)
    (hlive : liveControls w msg.channelId = [msg])
    (hfresh : freshId ≠ msg.id)
    (hgs : statInv w.gstats) (hss : statInv w.stats)
    (hkey : count_key = "burgers_posted" ∨ count_key = "angry_burgers_posted") :
    (callback w msg count_key now freshId deliveryOk).2.isOk = deliveryOk ∧
    (deliveryOk = false →
      liveControls ((callback w msg count_key now freshId deliveryOk).2.state)
          msg.channelId = [] ∧
      ((callback w msg count_key now freshId deliveryOk).2.state).delivered =
        w.delivered ∧
      ((callback w msg count_key now freshId deliveryOk).2.state).channels.getKey
          msg.channelId = some cc) ∧
    (deliveryOk = true →
      ((callback w msg count_key now freshId deliveryOk).2.state).delivered =
        w.delivered + 1 ∧
      liveControls ((callback w msg count_key now freshId deliveryOk).2.state)
          msg.channelId = [⟨freshId, msg.channelId⟩] ∧
      ((callback w msg count_key now freshId deliveryOk).2.state).channels.getKey
          msg.channelId = some { cc with button_id := some freshId }) ∧
    WorldsOk (fun w' => w.delivered < w'.delivered → msg ∉ w'.liveMessages)
      (callback w msg count_key now freshId deliveryOk).1 := by
  have hw1 := remove_burg_button_match (viewStop w msg) msg cc hb hid
  have hsome : (((remove_burg_button (viewStop w msg) msg).1).channels.getKey
      msg.channelId).isSome := by
    rw [hw1]
    exact Option.isSome_iff_exists.mpr ⟨cc, hb⟩
  have hQremoved : ∀ w' : World, w'.channels = w.channels →
      w'.liveMessages = w.liveMessages.filter (fun m => m.id ≠ msg.id) →
      w'.delivered = w.delivered →
      liveControls w' msg.channelId = [] ∧
      w'.delivered = w.delivered ∧
      w'.channels.getKey msg.channelId = some cc := by
    intro w' hch hlm hd
    refine ⟨?_, hd, ?_⟩
    · simp only [liveControls, hlm]
      exact liveControls_filter_id w msg hlive
    · rw [hch]
      exact hb
  have hQfinal : ∀ w' : World, w'.channels = w.channels →
      w'.liveMessages = w.liveMessages.filter (fun m => m.id ≠ msg.id) →
      w'.delivered = w.delivered + 1 →
      (create_burg_button w' msg.channelId freshId).delivered = w.delivered + 1 ∧
      liveControls (create_burg_button w' msg.channelId freshId) msg.channelId =
        [⟨freshId, msg.channelId⟩] ∧
      (create_burg_button w' msg.channelId freshId).channels.getKey msg.channelId =
        some { cc with button_id := some freshId } := by
    intro w' hch hlm hd
    refine ⟨hd, ?_, ?_⟩
    · rw [liveControls_create_burg]
      have hl : liveControls w' msg.channelId = [] := by
        simp only [liveControls, hlm]
        exact liveControls_filter_id w msg hlive
      rw [hl]
      rfl
    · have hchans : (create_burg_button w' msg.channelId freshId).channels =
          w'.channels.setKey msg.channelId { cc with button_id := some freshId } := by
        simp only [create_burg_button, hch, hb]
      rw [hchans, hch, Channels.getKey_set_chan, if_pos rfl]
  have hD_init : ∀ w' : World, w'.delivered = w.delivered →
      (w.delivered < w'.delivered → msg ∉ w'.liveMessages) := by
    intro w' hd hlt
    rw [hd] at hlt
    exact absurd hlt (lt_irrefl _)
  have hD_removed : ∀ w' : World,
      w'.liveMessages = w.liveMessages.filter (fun m => m.id ≠ msg.id) →
      (w.delivered < w'.delivered → msg ∉ w'.liveMessages) := by
    intro w' hlm _
    rw [hlm]
    exact not_mem_filter_id w.liveMessages msg
  have hD_final : ∀ w' : World,
      w'.liveMessages = w.liveMessages.filter (fun m => m.id ≠ msg.id) →
      (w.delivered < (create_burg_button w' msg.channelId freshId).delivered →
        msg ∉ (create_burg_button w' msg.channelId freshId).liveMessages) := by
    intro w' hlm _
    have hl : (create_burg_button w' msg.channelId freshId).liveMessages =
        w'.liveMessages ++ [⟨freshId, msg.channelId⟩] := rfl
    rw [hl, hlm]
    intro habs
    rcases List.mem_append.mp habs with h1 | h2
    · exact not_mem_filter_id w.liveMessages msg h1
    · rw [List.mem_singleton] at h2
      exact hfresh (congrArg Message.id h2.symm)
  cases deliveryOk with
  | false =>
    have hpost : post_to_burghook ((remove_burg_button (viewStop w msg) msg).1)
        msg.channelId false = none := by
      rw [post_to_burghook_spec _ msg.channelId false hsome]
      simp
    simp only [callback, hpost, ActResult.state, ActResult.isOk, WorldsOk]
    refine ⟨by trivial, ?_, ?_, ?_, ?_, ?_, trivial⟩
    · intro _
      refine hQremoved _ ?_ ?_ ?_ <;> (rw [hw1]; try rfl)
    · intro h
      exact absurd h (by simp)
    · exact hD_init w rfl
    · exact hD_init _ rfl
    · refine hD_removed _ ?_
      rw [hw1]
      try rfl
  | true =>
    have hpost := post_to_burghook_spec ((remove_burg_button (viewStop w msg) msg).1)
      msg.channelId true hsome
    rw [if_pos rfl] at hpost
    obtain ⟨g, hgg⟩ := Option.isSome_iff_exists.mp
      (count_burg_isSome w.gstats now count_key hgs hkey)
    obtain ⟨st, hst⟩ := Option.isSome_iff_exists.mp
      (count_burg_isSome w.stats now count_key hss hkey)
    have hgstats : ((remove_burg_button (viewStop w msg) msg).1).gstats = w.gstats := by
      rw [hw1]
      rfl
    have hstats : ((remove_burg_button (viewStop w msg) msg).1).stats = w.stats := by
      rw [hw1]
      rfl
    have hD2 : msg ∉ ((remove_burg_button (viewStop w msg) msg).1).liveMessages := by
      rw [hw1]
      exact not_mem_filter_id w.liveMessages msg
    have hgg' : count_burg ((remove_burg_button (viewStop w msg) msg).1).gstats
        now count_key = some g := by rw [hgstats]; exact hgg
    have hst' : count_burg ((remove_burg_button (viewStop w msg) msg).1).stats
        now count_key = some st := by rw [hstats]; exact hst
    simp only [callback, hpost, hgg', hst', ActResult.state, ActResult.isOk, WorldsOk]
    refine ⟨by trivial, ?_, ?_, ?_, ?_, ?_, ?_, ?_, ?_, ?_, trivial⟩
    · intro h
      exact absurd h (by simp)
    · intro _
      refine hQfinal _ ?_ ?_ ?_ <;> (rw [hw1]; try rfl)
    · exact hD_init w rfl
    · exact hD_init _ rfl
    · refine hD_removed _ ?_
      rw [hw1]
      try rfl
    · exact fun _ => hD2
    · exact fun _ => hD2
    · exact fun _ => hD2
    · refine hD_final _ ?_
      rw [hw1]
      try rfl

theorem C3_witness :
    (callback wldW msgW "burgers_posted" 0 11 true).2.isOk = true ∧
    (true = false →
      liveControls ((callback wldW msgW "burgers_posted" 0 11 true).2.state)
          msgW.channelId = [] ∧
      ((callback wldW msgW "burgers_posted" 0 11 true).2.state).delivered =
        wldW.delivered ∧
      ((callback wldW msgW "burgers_posted" 0 11 true).2.state).channels.getKey
          msgW.channelId = some ccW) ∧
    (true = true →
      ((callback wldW msgW "burgers_posted" 0 11 true).2.state).delivered =
        wldW.delivered + 1 ∧
      liveControls ((callback wldW msgW "burgers_posted" 0 11 true).2.state)
          msgW.channelId = [⟨11, msgW.channelId⟩] ∧
      ((callback wldW msgW "burgers_posted" 0 11 true).2.state).channels.getKey
          msgW.channelId = some { ccW with button_id := some 11 }) ∧
    WorldsOk (fun w' => wldW.delivered < w'.delivered → msgW ∉ w'.liveMessages)
      (callback wldW msgW "burgers_posted" 0 11 true).1 :=
  C3_activation_protocol wldW msgW ccW "burgers_posted" 0 11 true
    (by decide) (by decide) (by decide) (by decide) (by decide) (by decide) (Or.inl rfl)

theorem count_burg_N_fresh (s : StatStore) (ts : ℕ → ℚ) (key : String)
    (hfresh : s.getKey "burger_epoch" = none)
    (hkey : key = "burgers_posted" ∨ key = "angry_burgers_posted") :
    ∀ n, 1 ≤ n → ∃ s', count_burg_N s ts key n = some s' ∧
      s'.getKey "burger_epoch" = some (ts 0) ∧
      s'.getKey "burgers_posted" = some (if key = "burgers_posted" then (n : ℚ) else 0) ∧
      s'.getKey "angry_burgers_posted" =
        some (if key = "angry_burgers_posted" then (n : ℚ) else 0) := by
  intro n
  induction n with
  | zero => intro h; exact absurd h (by omega)
  | succ n ih =>
    intro _
    rcases Nat.eq_zero_or_pos n with rfl | hn
    · have hinit_get : ((((s.setKey "burger_epoch" (ts 0)).setKey "burgers_posted" 0).setKey
          "angry_burgers_posted" 0)).getKey key = some 0 := by
        rcases hkey with rfl | rfl <;> simp [StatStore.getKey_set_stat]
      have heq : count_burg s (ts 0) key =
          some (((((s.setKey "burger_epoch" (ts 0)).setKey "burgers_posted" 0).setKey
            "angry_burgers_posted" 0)).setKey key (0 + 1)) := by
        simp [count_burg, hfresh, hinit_get]
      refine ⟨((((s.setKey "burger_epoch" (ts 0)).setKey "burgers_posted" 0).setKey
          "angry_burgers_posted" 0)).setKey key (0 + 1), ?_, ?_, ?_, ?_⟩
      · simp only [count_burg_N]
        exact heq
      · rcases hkey with rfl | rfl <;> simp [StatStore.getKey_set_stat]
      · rcases hkey with rfl | rfl <;> simp [StatStore.getKey_set_stat]
      · rcases hkey with rfl | rfl <;> simp [StatStore.getKey_set_stat]
    · obtain ⟨s', hsn, he, hbp, habp⟩ := ih hn
      have hget : s'.getKey key = some ((n : ℚ)) := by
        rcases hkey with rfl | rfl
        · rw [hbp]; simp
        · rw [habp]; simp
      have hstep : count_burg s' (ts n) key = some (s'.setKey key ((n : ℚ) + 1)) := by
        simp [count_burg, he, hget]
      refine ⟨s'.setKey key ((n : ℚ) + 1), ?_, ?_, ?_, ?_⟩
      · simp only [count_burg_N, hsn]
        exact hstep
      · rcases hkey with rfl | rfl <;> simp [StatStore.getKey_set_stat, he]
      · rcases hkey with rfl | rfl <;>
          simp [StatStore.getKey_set_stat, hbp, habp, Nat.cast_succ]
      · rcases hkey with rfl | rfl <;>
          simp [StatStore.getKey_set_stat, hbp, habp, Nat.cast_succ]

/-- C5: on a fresh scope every read yields 0; the first increment sets the
epoch (to the first call's time, never modified by later increments) and
initializes both known counters before incrementing; after N increments the
incremented counter reads N. -/
theorem C5_counter_semantics (s : StatStore) (ts : ℕ → ℚ) (key k2 : String) (n : ℕ)
    (hfresh : s.getKey "burger_epoch" = none)
    (hkey : key = "burgers_posted" ∨ key = "angry_burgers_posted") :
    num_burg s k2 = some 0 ∧
    (count_burg_N s ts key n).bind (fun s' => num_burg s' key) = some ((n : ℕ) : ℚ) ∧
    (1 ≤ n →
      (count_burg_N s ts key n).bind (fun s' => s'.getKey "burger_epoch") =
        some (ts 0)) := by
  refine ⟨?_, ?_, ?_⟩
  · simp [num_burg, hfresh]
  · rcases Nat.eq_zero_or_pos n with rfl | hn
    · simp [count_burg_N, num_burg, hfresh]
    · obtain ⟨s', hsn, he, hbp, habp⟩ := count_burg_N_fresh s ts key hfresh hkey n hn
      have hget : s'.getKey key = some ((n : ℚ)) := by
        rcases hkey with rfl | rfl
        · rw [hbp]; simp
        · rw [habp]; simp
      rw [hsn]
      simp [num_burg, he, hget]
  · intro hn
    obtain ⟨s', hsn, he, _, _⟩ := count_burg_N_fresh s ts key hfresh hkey n hn
    rw [hsn]
    simp [he]

theorem C5_witness :
    num_burg [] "angry_burgers_posted" = some 0 ∧
    (count_burg_N [] (fun i => (i : ℚ)) "burgers_posted" 3).bind
      (fun s' => num_burg s' "burgers_posted") = some ((3 : ℕ) : ℚ) ∧
    (1 ≤ 3 →
      (count_burg_N [] (fun i => (i : ℚ)) "burgers_posted" 3).bind
        (fun s' => s'.getKey "burger_epoch") = some ((0 : ℕ) : ℚ)) :=
  C5_counter_semantics [] (fun i => (i : ℚ)) "burgers_posted" "angry_burgers_posted" 3
    rfl (Or.inl rfl)

/-- C9: from any store satisfying the invariant, an increment of a known
counter succeeds, the epoch is set afterwards, the invariant is preserved,
and reading either known counter afterwards never hits a missing key. -/
theorem C9_known_counters_present (s : StatStore) (now : ℚ) (key : String)
    (hinv : statInv s)
    (hkey : key = "burgers_posted" ∨ key = "angry_burgers_posted") :
    (count_burg s now key).isSome ∧
    (((count_burg s now key).getD []).getKey "burger_epoch").isSome ∧
    statInv ((count_burg s now key).getD []) ∧
    (num_burg ((count_burg s now key).getD []) "burgers_posted").isSome ∧
    (num_burg ((count_burg s now key).getD []) "angry_burgers_posted").isSome := by
  cases hep : s.getKey "burger_epoch" with
  | none =>
    rcases hkey with rfl | rfl <;>
      simp [count_burg, hep, StatStore.getKey_set_stat, statInv, num_burg]
  | some e =>
    obtain ⟨h1, h2⟩ := hinv (by simp [hep])
    obtain ⟨v1, hv1⟩ := Option.isSome_iff_exists.mp h1
    obtain ⟨v2, hv2⟩ := Option.isSome_iff_exists.mp h2
    rcases hkey with rfl | rfl <;>
      simp [count_burg, hep, hv1, hv2, StatStore.getKey_set_stat, statInv, num_burg]

theorem C9_witness :
    (count_burg [("burger_epoch", 5), ("burgers_posted", 2), ("angry_burgers_posted", 0)]
      6 "angry_burgers_posted").isSome ∧
    (((count_burg [("burger_epoch", 5), ("burgers_posted", 2), ("angry_burgers_posted", 0)]
      6 "angry_burgers_posted").getD []).getKey "burger_epoch").isSome ∧
    statInv ((count_burg [("burger_epoch", 5), ("burgers_posted", 2),
      ("angry_burgers_posted", 0)] 6 "angry_burgers_posted").getD []) ∧
    (num_burg ((count_burg [("burger_epoch", 5), ("burgers_posted", 2),
      ("angry_burgers_posted", 0)] 6 "angry_burgers_posted").getD [])
      "burgers_posted").isSome ∧
    (num_burg ((count_burg [("burger_epoch", 5), ("burgers_posted", 2),
      ("angry_burgers_posted", 0)] 6 "angry_burgers_posted").getD [])
      "angry_burgers_posted").isSome :=
  C9_known_counters_present
    [("burger_epoch", 5), ("burgers_posted", 2), ("angry_burgers_posted", 0)]
    6 "angry_burgers_posted" (by decide) (Or.inr rfl)

/-- C2 (failing input): with two persisted bindings where channel 1's control
is missing and channel 2's still exists, `resume_views` recreates channel
1's control and then returns, so channel 2's handler is never reattached —
the early `return` in the not-found branch aborts the remaining bindings. -/
theorem C2_resume_views_early_return :
    (resume_views wldC2 (fun c b => (c == 2) && (b == 20)) 99).startedViews = [(1, 99)] ∧
    (2, 20) ∉ (resume_views wldC2 (fun c b => (c == 2) && (b == 20)) 99).startedViews := by
  decide
